import Mathlib

set_option autoImplicit false

set_option maxRecDepth 8192

/-! Shallow embedding of the browser-wellbeing background script
(src/src/background.ts): domain extraction, the session lifecycle
tracker, batched persistence with FIFO retention, and the debounced
flush scheduler. Definitions follow the source; timestamps are
milliseconds modelled as naturals. -/

/-- Session record as created by the background script. The popup layer
may add title and description fields; the background script only ever
sets domain, startAt, tabId, endAt and favicon, so those are the
modelled fields. -/
structure Session where
  domain : String
  startAt : Nat
  tabId : Nat
  endAt : Option Nat := none
  favicon : Option String := none
  deriving Repr, DecidableEq

/-- Scheme characters accepted after the first letter by the platform URL
parser that `new URL` invokes. -/
def isSchemeChar (c : Char) : Bool :=
  c.isAlphanum || c == '+' || c == '-' || c == '.'

/-- Splits a character list at the first colon, returning the parts before
and after it, or `none` when no colon occurs. -/
def splitAtColon : List Char → Option (List Char × List Char)
  | [] => none
  | c :: cs =>
    if c = ':' then some ([], cs)
    else
      match splitAtColon cs with
      | some (a, b) => some (c :: a, b)
      | none => none

/-- Scheme validity: nonempty, a letter first, scheme characters after. -/
def validScheme : List Char → Bool
  | [] => false
  | c :: cs => c.isAlpha && cs.all isSchemeChar

/-- Characters that terminate the authority component of a URL. -/
def isAuthEnd (c : Char) : Bool :=
  c == '/' || c == '?' || c == '#'

/-- Special schemes for which the platform parser rejects an empty host;
`file` is also special but allows an empty host, so it is absent. -/
def requiresHost (scheme : List Char) : Bool :=
  scheme == "http".data || scheme == "https".data || scheme == "ws".data ||
  scheme == "wss".data || scheme == "ftp".data

/-- Modelled from the platform primitive `new URL`, restricted to the
hostname projection the source reads: reject when no valid scheme is
present; with a `//` authority, take the authority up to the first
delimiter, keep the part after the last `@` (userinfo), cut a port
after `:`, lowercase, and reject an empty host for the special schemes;
without `//` the hostname is empty (opaque-path URLs such as `about:`
or `mailto:`). Per-character host validation, ports and the
special-scheme-without-slashes form are not modelled. Returns the
hostname, or `none` where `new URL` would throw. -/
def parseURLData (l : List Char) : Option (List Char) :=
  match splitAtColon l with
  | none => none
  | some (schemeRaw, rest) =>
    if validScheme schemeRaw then
      let scheme := schemeRaw.map Char.toLower
      if rest.take 2 == ['/', '/'] then
        let auth := (rest.drop 2).takeWhile (fun c => !isAuthEnd c)
        let hostPort := (auth.splitOn '@').getLastD []
        let host := (hostPort.takeWhile (fun c => c != ':')).map Char.toLower
        if host.isEmpty && requiresHost scheme then none
        else some host
      else some []
    else none

/-- String wrapper for the modelled URL hostname parser. -/
def parseURL (url : String) : Option String :=
  (parseURLData url.data).map fun h => ⟨h⟩

/-- Translation of the source check `hostname.startsWith("www.")`
followed by `hostname.substring(4)`: the JS test holds exactly when the
first four characters are `www.`, and substring(4) removes them. -/
def stripWww (hostname : String) : String :=
  if hostname.take 4 = "www." then hostname.drop 4 else hostname

/-- extractDomain from src/src/background.ts lines 62-75: parse the URL,
return the hostname with one leading `www.` stripped, or null (`none`)
when parsing throws. The source also logs on failure; logging is not
modelled, and the function is otherwise side-effect free. -/
def extractDomain (url : String) : Option String :=
  (parseURL url).map stripWww

/-- Global mutable state of the background script: the open session, the
in-memory pending batch, the persisted `sessions` key (`none` when
never written), the timestamp of the last completed flush, and the
deadlines of armed `setTimeout` timers (the source keeps no handle on
them; the model records the scheduled firing times). -/
structure SysState where
  currentSession : Option Session
  sessionBatch : List Session
  sessions : Option (List Session)
  lastStorageUpdate : Nat
  pendingTimers : List Nat
  deriving Repr, DecidableEq

def STORAGE_BATCH_DELAY : Nat := 2000

def MAX_SESSIONS : Nat := 1000

/-- Initial values of the globals at script load. -/
def initState : SysState :=
  { currentSession := none, sessionBatch := [], sessions := none,
    lastStorageUpdate := 0, pendingTimers := [] }

/-- JS `arr.slice(-n)` for positive `n`: the last `n` elements, or the
whole list when it is shorter. -/
def sliceLast {α : Type} (n : Nat) (l : List α) : List α :=
  l.drop (l.length - n)

/-- Outcome of the storage get and set awaited inside a flush. -/
inductive StorageOutcome
  | ok
  | readFail
  | writeFail
  deriving Repr, DecidableEq

/-- batchSaveSessions from src/src/background.ts lines 31-49,
parametrised by the outcome of the storage calls. An empty batch
returns at once. On success: read the stored list (empty when unset),
append the batch, keep the last MAX_SESSIONS, write back, clear the
batch and record the flush time. A rejected get or set lands in the
catch block; no global was mutated before either await, so the state is
unchanged and the batch is kept for the next flush. -/
def batchSaveSessionsE (o : StorageOutcome) (now : Nat) (s : SysState) : SysState :=
  if s.sessionBatch.isEmpty then s
  else
    match o with
    | .readFail => s
    | .writeFail => s
    | .ok =>
      let existingSessions := s.sessions.getD []
      let allSessions := existingSessions ++ s.sessionBatch
      let limitedSessions := sliceLast MAX_SESSIONS allSessions
      { s with sessions := some limitedSessions, sessionBatch := [],
               lastStorageUpdate := now }

/-- Flush along the successful storage path. -/
def batchSaveSessions (now : Nat) (s : SysState) : SysState :=
  batchSaveSessionsE .ok now s

/-- scheduleStorageUpdate from src/src/background.ts lines 52-59: flush
at once when more than STORAGE_BATCH_DELAY has passed since the last
completed flush, otherwise arm a new `setTimeout` for the remainder of
the window. The source never tracks whether a timer is already armed,
so every deferred request pushes a fresh deadline. With JS numbers a
clock running behind `lastStorageUpdate` gives a negative difference
and fails the comparison, exactly as truncated subtraction does. -/
def scheduleStorageUpdate (now : Nat) (s : SysState) : SysState :=
  if now - s.lastStorageUpdate > STORAGE_BATCH_DELAY then
    batchSaveSessions now s
  else
    { s with pendingTimers :=
        (now + (STORAGE_BATCH_DELAY - (now - s.lastStorageUpdate))) :: s.pendingTimers }

/-- Closing a session assigns its end timestamp. -/
def closeSession (sess : Session) (now : Nat) : Session :=
  { sess with endAt := some now }

/-- Guard on src/src/background.ts line 126: a session is already open
for the same domain and the same tab. -/
def sameSession (cur : Option Session) (domain : String) (tabId : Nat) : Bool :=
  match cur with
  | some sess => sess.domain == domain && sess.tabId == tabId
  | none => false

/-- Local variables of updateSession that survive across the awaited
metadata fetch: the extracted domain, the tab and the captured time. -/
structure PendingOpen where
  domain : String
  tabId : Nat
  startAt : Nat
  deriving Repr, DecidableEq

/-- First half of updateSession (src/src/background.ts lines 116-139), up
to the awaited metadata fetch: extract the domain and discard the event
when it is null or empty (both JS falsy), no-op on the same
(domain, tabId), and otherwise set endAt on the open session and push
it onto the batch. In the source the push aliases the object still held
by currentSession, so after this phase currentSession references the
now closed session; the model mirrors that by storing the closed value.
Returns the locals carried into the second phase, or `none` when the
call returned early. -/
def updateSessionPhase1 (url : String) (tabId : Nat) (now : Nat) (s : SysState) :
    SysState × Option PendingOpen :=
  match extractDomain url with
  | none => (s, none)
  | some domain =>
    if domain.isEmpty then (s, none)
    else if sameSession s.currentSession domain tabId then (s, none)
    else
      match s.currentSession with
      | some cur =>
        ({ s with currentSession := some (closeSession cur now),
                  sessionBatch := s.sessionBatch ++ [closeSession cur now] },
         some { domain := domain, tabId := tabId, startAt := now })
      | none => (s, some { domain := domain, tabId := tabId, startAt := now })

/-- Second half of updateSession (src/src/background.ts lines 141-155),
after the metadata fetch resolves with an optional favicon: assign the
new open session and request a batched storage update. The source calls
Date.now() again inside scheduleStorageUpdate; the model reuses the
captured time, exact whenever both reads land on the same
millisecond. -/
def updateSessionPhase2 (p : PendingOpen) (favicon : Option String) (s : SysState) : SysState :=
  let opened : Session :=
    { domain := p.domain, startAt := p.startAt, tabId := p.tabId,
      endAt := none, favicon := favicon }
  scheduleStorageUpdate p.startAt { s with currentSession := some opened }

/-- updateSession as executed without interleaving: phase one, the
metadata fetch resolves, then phase two. -/
def updateSession (url : String) (tabId : Nat) (now : Nat) (favicon : Option String)
    (s : SysState) : SysState :=
  match updateSessionPhase1 url tabId now s with
  | (s1, none) => s1
  | (s1, some p) => updateSessionPhase2 p favicon s1

/-- endCurrentSession from src/src/background.ts lines 204-216: when a
session is open, set its end time, push it onto the batch, clear the
current slot and request a storage update; otherwise do nothing. -/
def endCurrentSession (now : Nat) (s : SysState) : SysState :=
  match s.currentSession with
  | some cur =>
    scheduleStorageUpdate now
      { s with currentSession := none,
               sessionBatch := s.sessionBatch ++ [closeSession cur now] }
  | none => s

/-- Events driving the background script state, as dispatched by the
browser listeners: a focused-tab change carrying the favicon the
metadata fetch resolves with, an explicit session end, and a flush
firing with a given storage outcome. -/
inductive Ev
  | focus (url : String) (tabId : Nat) (now : Nat) (favicon : Option String)
  | sessionEnd (now : Nat)
  | flush (o : StorageOutcome) (now : Nat)
  deriving Repr

/-- One event step of the background script. -/
def step (e : Ev) (s : SysState) : SysState :=
  match e with
  | .focus url tabId now favicon => updateSession url tabId now favicon s
  | .sessionEnd now => endCurrentSession now s
  | .flush o now => batchSaveSessionsE o now s

/-- Sequential run of a list of events. -/
def run (es : List Ev) (s : SysState) : SysState :=
  es.foldl (fun st e => step e st) s

/-- Invariant: every session held anywhere in the state has a non-empty
domain. -/
def domainsNonEmpty (s : SysState) : Bool :=
  (match s.currentSession with
   | some sess => !sess.domain.isEmpty
   | none => true) &&
  s.sessionBatch.all (fun sess => !sess.domain.isEmpty) &&
  (s.sessions.getD []).all (fun sess => !sess.domain.isEmpty)

example : extractDomain "https://www.example.com/a" = some "example.com" := by decide

example : extractDomain "https://example.com/b" = some "example.com" := by decide

example : extractDomain "not a url" = none := by decide

example : extractDomain "file:///etc/hosts" = some "" := by decide

example : extractDomain "https://" = none := by decide

example : extractDomain "about:blank" = some "" := by decide

example : extractDomain "https://www.www.example.com/" = some "www.example.com" := by decide

/-- Helper: a hostname whose first four characters are `www.` is exactly
`www.` followed by the rest; stripping removes only that occurrence. -/
theorem www_take_drop (h : String) (hw : h.take 4 = "www.") :
    "www." ++ h.drop 4 = h := by
  apply String.ext
  have hd : h.data.take 4 = "www.".data := by
    have h2 := congrArg String.data hw
    simpa using h2
  have h3 : h.data = h.data.take 4 ++ h.data.drop 4 := (List.take_append_drop 4 h.data).symm
  simp only [String.data_append, String.data_drop]
  rw [hd] at h3
  exact h3.symm

/-- C7: extractDomain returns null (`none`) exactly when URL parsing
fails; on a parsed hostname it strips a leading literal `www.` when
present, only one occurrence and only at the start, leaving the rest of
the hostname intact, and returns the hostname unchanged otherwise. -/
theorem extractDomain_parse_cases (u : String) :
    (parseURL u = none → extractDomain u = none) ∧
    (∀ h, parseURL u = some h →
      extractDomain u = some (stripWww h) ∧
      (h.take 4 = "www." → stripWww h = h.drop 4 ∧ "www." ++ stripWww h = h) ∧
      (h.take 4 ≠ "www." → stripWww h = h)) := by
  constructor
  · intro hp
    simp [extractDomain, hp]
  · intro h hp
    refine ⟨by simp [extractDomain, hp], fun hw => ⟨?_, ?_⟩, fun hw => ?_⟩
    · simp [stripWww, hw]
    · rw [stripWww, if_pos hw]
      exact www_take_drop h hw
    · simp [stripWww, hw]

/-- Witness for C7 at a concrete URL with a `www.` hostname. -/
theorem extractDomain_parse_cases_witness :
    parseURL "https://www.example.com/a" = some "www.example.com" ∧
    ("www.example.com" : String).take 4 = "www." ∧
    extractDomain "https://www.example.com/a" = some (stripWww "www.example.com") ∧
    stripWww "www.example.com" = ("www.example.com" : String).drop 4 ∧
    "www." ++ stripWww "www.example.com" = "www.example.com" := by
  have hp : parseURL "https://www.example.com/a" = some "www.example.com" := by decide
  have hw : ("www.example.com" : String).take 4 = "www." := by decide
  have main := (extractDomain_parse_cases "https://www.example.com/a").2 "www.example.com" hp
  exact ⟨hp, hw, main.1, (main.2.1 hw).1, (main.2.1 hw).2⟩

/-- C8 counterexample: on a hostname with repeated leading `www.` labels
the extractor is not idempotent; a second application over the
reconstructed URL strips a further `www.` label. -/
theorem extractDomain_not_idempotent_on_repeated_www :
    extractDomain "https://www.www.example.com/" = some "www.example.com" ∧
    extractDomain ("https://" ++ "www.example.com") = some "example.com" ∧
    extractDomain ("https://" ++ "www.example.com") ≠
      extractDomain "https://www.www.example.com/" := by
  refine ⟨by decide, by decide, by decide⟩

/-- C8 amended: the extractor is idempotent on every hostname whose
stripped form does not itself begin with `www.`; the reconstructed URL
is assumed to parse back to the extracted domain. -/
theorem extractDomain_idempotent_unless_repeated_www (u d : String)
    (hu : extractDomain u = some d)
    (hrecon : parseURL ("https://" ++ d) = some d)
    (hw : d.take 4 ≠ "www.") :
    extractDomain ("https://" ++ d) = extractDomain u := by
  rw [extractDomain, hrecon, Option.map_some', stripWww, if_neg hw, hu]

/-- Witness for the amended C8 at a concrete URL. -/
theorem extractDomain_idempotent_unless_repeated_www_witness :
    extractDomain "https://www.example.com/a" = some "example.com" ∧
    parseURL ("https://" ++ "example.com") = some "example.com" ∧
    ("example.com" : String).take 4 ≠ "www." ∧
    extractDomain ("https://" ++ "example.com") = extractDomain "https://www.example.com/a" := by
  refine ⟨by decide, by decide, by decide,
    extractDomain_idempotent_unless_repeated_www _ _ (by decide) (by decide) (by decide)⟩

/-- Example session open on example.com in tab 1 since time 0. -/
def sessEx : Session := { domain := "example.com", startAt := 0, tabId := 1 }

/-- Example state with that session open and nothing else pending. -/
def stEx : SysState := { initState with currentSession := some sessEx }

/-- Helper: a focus event carrying the domain and tab of the open session
returns before touching any state. -/
theorem updateSession_same_noop (url : String) (tabId now : Nat) (fav : Option String)
    (s : SysState) (cur : Session) (hc : s.currentSession = some cur)
    (hd : extractDomain url = some cur.domain) (ht : cur.tabId = tabId) :
    updateSession url tabId now fav s = s := by
  unfold updateSession updateSessionPhase1
  rw [hd]
  by_cases he : cur.domain.isEmpty
  · simp [he]
  · simp [he, sameSession, hc, ht]

/-- C2: with a session open, a sequence of focus events that extract to
the same domain and carry the same tab is a no-op: the whole state,
hence the current session, its startAt, the batch and the store, is
unchanged, so only the call that opened the session produced one. -/
theorem redundant_focus_calls_noop (s : SysState) (cur : Session)
    (hc : s.currentSession = some cur) (calls : List Ev)
    (hall : ∀ e ∈ calls, ∃ url now fav,
      e = Ev.focus url cur.tabId now fav ∧ extractDomain url = some cur.domain) :
    run calls s = s := by
  induction calls with
  | nil => rfl
  | cons e es ih =>
    obtain ⟨url, now, fav, rfl, hd⟩ := hall _ (List.mem_cons_self e es)
    have h1 : step (Ev.focus url cur.tabId now fav) s = s :=
      updateSession_same_noop url cur.tabId now fav s cur hc hd rfl
    show List.foldl (fun st e => step e st) s (Ev.focus url cur.tabId now fav :: es) = s
    rw [List.foldl_cons, h1]
    exact ih (fun e' he' => hall e' (List.mem_cons_of_mem _ he'))

/-- Witness for C2: two redundant focus events on the open session, one
with the `www.` form of the domain, leave the state untouched. -/
theorem redundant_focus_calls_noop_witness :
    stEx.currentSession = some sessEx ∧
    run [Ev.focus "https://www.example.com/a" 1 100 none,
         Ev.focus "https://example.com/b" 1 200 none] stEx = stEx := by
  refine ⟨rfl, redundant_focus_calls_noop stEx sessEx rfl _ ?_⟩
  intro e he
  simp only [List.mem_cons, List.not_mem_nil, or_false] at he
  rcases he with rfl | rfl
  · exact ⟨"https://www.example.com/a", 100, none, rfl, by decide⟩
  · exact ⟨"https://example.com/b", 200, none, rfl, by decide⟩

/-- Helper: a flush request inside the debounce window only arms a timer
for the end of the window. -/
theorem scheduleStorageUpdate_deferred (now : Nat) (s : SysState)
    (hwin : now - s.lastStorageUpdate ≤ STORAGE_BATCH_DELAY) :
    scheduleStorageUpdate now s =
      { s with pendingTimers :=
          (now + (STORAGE_BATCH_DELAY - (now - s.lastStorageUpdate))) :: s.pendingTimers } := by
  unfold scheduleStorageUpdate
  rw [if_neg (Nat.not_lt.mpr hwin)]

/-- Helper: first half of a superseding focus event, up to the await: the
open session is closed in place and appended to the batch while the
current slot still holds it. -/
theorem updateSessionPhase1_supersede (url : String) (tabId now : Nat) (s : SysState)
    (cur : Session) (domain : String)
    (hc : s.currentSession = some cur)
    (hd : extractDomain url = some domain) (hne : ¬ domain.isEmpty)
    (hdiff : sameSession s.currentSession domain tabId = false) :
    updateSessionPhase1 url tabId now s =
      ({ s with currentSession := some (closeSession cur now),
                sessionBatch := s.sessionBatch ++ [closeSession cur now] },
       some { domain := domain, tabId := tabId, startAt := now }) := by
  rw [hc] at hdiff
  unfold updateSessionPhase1
  rw [hd]
  simp [hne, hdiff, hc]

/-- Helper: the full state transition of a superseding focus event within
the debounce window. -/
theorem updateSession_supersede_state (url : String) (tabId now : Nat) (fav : Option String)
    (s : SysState) (cur : Session) (domain : String)
    (hc : s.currentSession = some cur)
    (hd : extractDomain url = some domain) (hne : ¬ domain.isEmpty)
    (hdiff : sameSession s.currentSession domain tabId = false)
    (hwin : now - s.lastStorageUpdate ≤ STORAGE_BATCH_DELAY) :
    updateSession url tabId now fav s =
      { s with currentSession := some { domain := domain, startAt := now, tabId := tabId,
                                        endAt := none, favicon := fav },
               sessionBatch := s.sessionBatch ++ [closeSession cur now],
               pendingTimers := (now + (STORAGE_BATCH_DELAY - (now - s.lastStorageUpdate)))
                 :: s.pendingTimers } := by
  unfold updateSession
  rw [updateSessionPhase1_supersede url tabId now s cur domain hc hd hne hdiff]
  show updateSessionPhase2 _ fav _ = _
  unfold updateSessionPhase2 scheduleStorageUpdate
  rw [if_neg (Nat.not_lt.mpr hwin)]

/-- C1: a superseding focus event closes the open session with endAt set
to the event time, the closed record sits in the pending batch already
at the end of phase one, before the new session is assigned, and the
new session opens with startAt equal to that same time, so the
superseded endAt equals the successor startAt; with a monotone clock
the assigned endAt is at least the closed session startAt. -/
theorem supersede_closes_then_opens (url : String) (tabId now : Nat) (fav : Option String)
    (s : SysState) (cur : Session) (domain : String)
    (hc : s.currentSession = some cur)
    (hd : extractDomain url = some domain) (hne : ¬ domain.isEmpty)
    (hdiff : sameSession s.currentSession domain tabId = false)
    (hmono : cur.startAt ≤ now)
    (hwin : now - s.lastStorageUpdate ≤ STORAGE_BATCH_DELAY) :
    (updateSessionPhase1 url tabId now s).1.sessionBatch
        = s.sessionBatch ++ [closeSession cur now] ∧
    (updateSessionPhase1 url tabId now s).1.currentSession ≠
        some { domain := domain, startAt := now, tabId := tabId,
               endAt := none, favicon := fav } ∧
    (closeSession cur now).endAt = some now ∧
    (closeSession cur now).startAt ≤ now ∧
    (updateSession url tabId now fav s).sessionBatch
        = s.sessionBatch ++ [closeSession cur now] ∧
    (updateSession url tabId now fav s).currentSession
        = some { domain := domain, startAt := now, tabId := tabId,
                 endAt := none, favicon := fav } ∧
    (closeSession cur now).endAt
        = some ({ domain := domain, startAt := now, tabId := tabId,
                  endAt := none, favicon := fav } : Session).startAt := by
  have h1 := updateSessionPhase1_supersede url tabId now s cur domain hc hd hne hdiff
  have h2 := updateSession_supersede_state url tabId now fav s cur domain hc hd hne hdiff hwin
  rw [h1, h2]
  refine ⟨rfl, ?_, rfl, hmono, rfl, rfl, rfl⟩
  simp [closeSession]

/-- Witness for C1: the open example.com session is superseded by a focus
event on github.com in the same tab. -/
theorem supersede_closes_then_opens_witness :
    sessEx.startAt ≤ 1000 ∧
    (updateSession "https://github.com/x" 1 1000 none stEx).sessionBatch
      = stEx.sessionBatch ++ [closeSession sessEx 1000] ∧
    (updateSession "https://github.com/x" 1 1000 none stEx).currentSession
      = some { domain := "github.com", startAt := 1000, tabId := 1,
               endAt := none, favicon := none } := by
  have main := supersede_closes_then_opens "https://github.com/x" 1 1000 none stEx sessEx
    "github.com" rfl (by decide) (by decide) (by decide) (by decide) (by decide)
  exact ⟨by decide, main.2.2.2.2.1, main.2.2.2.2.2.1⟩

/-- C9: endCurrentSession with a session open closes it with endAt set,
appends it to the pending batch and empties the current slot; with no
session open it changes nothing and raises no error. -/
theorem endCurrentSession_cases (now : Nat) (s : SysState) :
    (s.currentSession = none → endCurrentSession now s = s) ∧
    (∀ cur, s.currentSession = some cur →
      now - s.lastStorageUpdate ≤ STORAGE_BATCH_DELAY →
      (endCurrentSession now s).currentSession = none ∧
      (endCurrentSession now s).sessionBatch = s.sessionBatch ++ [closeSession cur now] ∧
      (closeSession cur now).endAt = some now) := by
  constructor
  · intro hn
    unfold endCurrentSession
    rw [hn]
  · intro cur hc hwin
    have he : endCurrentSession now s =
        scheduleStorageUpdate now
          { s with currentSession := none,
                   sessionBatch := s.sessionBatch ++ [closeSession cur now] } := by
      unfold endCurrentSession
      rw [hc]
    rw [he, scheduleStorageUpdate_deferred now
      { s with currentSession := none,
               sessionBatch := s.sessionBatch ++ [closeSession cur now] } hwin]
    exact ⟨rfl, rfl, rfl⟩

/-- Witness for C9: the no-session case on the initial state and the
open-session case on the example state. -/
theorem endCurrentSession_cases_witness :
    endCurrentSession 5 initState = initState ∧
    (endCurrentSession 100 stEx).currentSession = none ∧
    (endCurrentSession 100 stEx).sessionBatch
      = stEx.sessionBatch ++ [closeSession sessEx 100] := by
  have h1 := (endCurrentSession_cases 5 initState).1 rfl
  have h2 := (endCurrentSession_cases 100 stEx).2 sessEx rfl (by decide)
  exact ⟨h1, h2.1, h2.2.1⟩

/-- Final state of the interleaving A1 B1 A2 B2 of two focus events over
an open example.com session: both first halves run before either second
half resumes after its metadata await, mirroring two rapid events whose
async sub-steps interleave. -/
def interleavedFinal : SysState :=
  updateSessionPhase2 { domain := "c.com", tabId := 3, startAt := 20 } none
    (updateSessionPhase2 { domain := "b.com", tabId := 2, startAt := 10 } none
      (updateSessionPhase1 "https://c.com/x" 3 20
        (updateSessionPhase1 "https://b.com/x" 2 10 stEx).1).1)

/-- Count of batch records carrying the immutable identity fields of a
session; endAt is excluded because the source mutates it in place on
the very object it already pushed. -/
def countMatching (l : List Session) (domain : String) (startAt tabId : Nat) : Nat :=
  l.countP fun r => r.domain == domain && r.startAt == startAt && r.tabId == tabId

/-- C3 counterexample: under the interleaving recorded in
interleavedFinal, the phase-one locals are exactly the ones fed to the
phase twos, yet the superseded example.com session is enqueued twice
and the b.com session created by the first call is overwritten without
ever being closed or enqueued: records are both duplicated and lost. -/
theorem interleaved_focus_duplicates_and_drops :
    (updateSessionPhase1 "https://b.com/x" 2 10 stEx).2
      = some { domain := "b.com", tabId := 2, startAt := 10 } ∧
    (updateSessionPhase1 "https://c.com/x" 3 20
        (updateSessionPhase1 "https://b.com/x" 2 10 stEx).1).2
      = some { domain := "c.com", tabId := 3, startAt := 20 } ∧
    countMatching interleavedFinal.sessionBatch "example.com" 0 1 = 2 ∧
    countMatching interleavedFinal.sessionBatch "b.com" 10 2 = 0 ∧
    interleavedFinal.currentSession
      = some { domain := "c.com", startAt := 20, tabId := 3,
               endAt := none, favicon := none } := by
  decide

/-- C3 amended: without interleaving, a superseding focus event closes
and enqueues the superseded session exactly once: the count of batch
records carrying its identity rises by one and every other count is
unchanged. -/
theorem sequential_supersede_exactly_once (url : String) (tabId now : Nat)
    (fav : Option String) (s : SysState) (cur : Session) (domain : String)
    (hc : s.currentSession = some cur)
    (hd : extractDomain url = some domain) (hne : ¬ domain.isEmpty)
    (hdiff : sameSession s.currentSession domain tabId = false)
    (hwin : now - s.lastStorageUpdate ≤ STORAGE_BATCH_DELAY) :
    ∀ d a t, countMatching (updateSession url tabId now fav s).sessionBatch d a t =
      countMatching s.sessionBatch d a t +
        (if d = cur.domain ∧ a = cur.startAt ∧ t = cur.tabId then 1 else 0) := by
  intro d a t
  rw [updateSession_supersede_state url tabId now fav s cur domain hc hd hne hdiff hwin]
  show countMatching (s.sessionBatch ++ [closeSession cur now]) d a t = _
  unfold countMatching
  rw [List.countP_append]
  congr 1
  by_cases h : d = cur.domain ∧ a = cur.startAt ∧ t = cur.tabId
  · obtain ⟨h1, h2, h3⟩ := h
    simp [List.countP_cons, closeSession, h1, h2, h3]
  · rw [if_neg h]
    cases hbool : ((closeSession cur now).domain == d && (closeSession cur now).startAt == a &&
        (closeSession cur now).tabId == t) with
    | true =>
      exfalso
      apply h
      simp only [closeSession, Bool.and_eq_true, beq_iff_eq] at hbool
      exact ⟨hbool.1.1.symm, hbool.1.2.symm, hbool.2.symm⟩
    | false =>
      simp [List.countP_cons, hbool]

/-- Witness for the amended C3: the superseded example.com record count
rises from zero to one. -/
theorem sequential_supersede_exactly_once_witness :
    stEx.currentSession = some sessEx ∧
    countMatching (updateSession "https://b.com/x" 2 10 none stEx).sessionBatch
        "example.com" 0 1 = countMatching stEx.sessionBatch "example.com" 0 1 + 1 := by
  have main := sequential_supersede_exactly_once "https://b.com/x" 2 10 none stEx sessEx
    "b.com" rfl (by decide) (by decide) (by decide) (by decide)
  have h := main "example.com" 0 1
  rw [if_pos ⟨rfl, rfl, rfl⟩] at h
  exact ⟨rfl, h⟩

/-- Helper: sliceLast keeps the reversed head of the reversed list. -/
theorem sliceLast_eq_reverse_take {α : Type} (n : Nat) (l : List α) :
    sliceLast n l = (l.reverse.take n).reverse := by
  rw [List.take_reverse, List.reverse_reverse]
  rfl

/-- Helper: truncating an already truncated list under new appends gives
the same result as truncating the full append sequence. -/
theorem sliceLast_append_sliceLast {α : Type} (n : Nat) (xs ys : List α) :
    sliceLast n (sliceLast n xs ++ ys) = sliceLast n (xs ++ ys) := by
  rw [sliceLast_eq_reverse_take, sliceLast_eq_reverse_take, sliceLast_eq_reverse_take]
  congr 1
  rw [List.reverse_append, List.reverse_reverse, List.reverse_append]
  rw [List.take_append_eq_append_take, List.take_append_eq_append_take, List.take_take]
  congr 1
  rw [Nat.min_eq_left (Nat.sub_le n ys.reverse.length)]

/-- Helper: sliceLast never exceeds the cap. -/
theorem sliceLast_length_le {α : Type} (n : Nat) (l : List α) :
    (sliceLast n l).length ≤ n := by
  unfold sliceLast
  rw [List.length_drop]
  omega

/-- Helper: sliceLast of a list at least as long as the cap has exactly
the cap length. -/
theorem sliceLast_length_of_ge {α : Type} (n : Nat) (l : List α) (h : n ≤ l.length) :
    (sliceLast n l).length = n := by
  unfold sliceLast
  rw [List.length_drop]
  omega

/-- Helper: a list within the cap is unchanged. -/
theorem sliceLast_of_le {α : Type} (n : Nat) (l : List α) (h : l.length ≤ n) :
    sliceLast n l = l := by
  unfold sliceLast
  rw [Nat.sub_eq_zero_of_le h, List.drop_zero]

/-- Helper: sliceLast is the suffix left after dropping the oldest
entries. -/
theorem take_append_sliceLast {α : Type} (n : Nat) (l : List α) :
    l.take (l.length - n) ++ sliceLast n l = l :=
  List.take_append_drop _ l

/-- Helper: a successful flush of a non-empty batch merges, truncates and
clears. -/
theorem batchSaveSessions_ok (now : Nat) (s : SysState) (hne : s.sessionBatch ≠ []) :
    batchSaveSessions now s =
      { s with sessions := some (sliceLast MAX_SESSIONS (s.sessions.getD [] ++ s.sessionBatch)),
               sessionBatch := [], lastStorageUpdate := now } := by
  unfold batchSaveSessions batchSaveSessionsE
  rw [if_neg (fun hcon => hne (List.isEmpty_iff.mp hcon))]

/-- Helper: any flush of an empty batch is a no-op. -/
theorem batchSaveSessionsE_empty (o : StorageOutcome) (now : Nat) (s : SysState)
    (hb : s.sessionBatch = []) : batchSaveSessionsE o now s = s := by
  unfold batchSaveSessionsE
  rw [if_pos (by rw [hb]; rfl)]

/-- Cumulative enqueue-then-flush rounds: each round appends its records
to the pending batch and performs a successful flush. -/
def flushRounds (bs : List (List Session)) (now : Nat) (s : SysState) : SysState :=
  bs.foldl (fun st b => batchSaveSessions now { st with sessionBatch := st.sessionBatch ++ b }) s
/-- Helper: across flush rounds from an empty batch and a stored list
within the cap, the stored list is the truncated append sequence. -/
theorem flushRounds_getD (now : Nat) (bs : List (List Session)) :
    ∀ (st : SysState), st.sessionBatch = [] →
      (st.sessions.getD []).length ≤ MAX_SESSIONS →
      (flushRounds bs now st).sessionBatch = [] ∧
      (flushRounds bs now st).sessions.getD []
        = sliceLast MAX_SESSIONS (st.sessions.getD [] ++ bs.flatten) := by
  induction bs with
  | nil =>
    intro st hb hlen
    refine ⟨hb, ?_⟩
    rw [List.flatten_nil, List.append_nil, sliceLast_of_le _ _ hlen]
    rfl
  | cons b rest ih =>
    intro st hb hlen
    rw [show flushRounds (b :: rest) now st
        = flushRounds rest now
            (batchSaveSessions now { st with sessionBatch := st.sessionBatch ++ b }) from rfl]
    by_cases hbe : b = []
    · have hsame : batchSaveSessions now { st with sessionBatch := st.sessionBatch ++ b }
          = st := by
        rw [hbe, List.append_nil]
        have heta : ({ st with sessionBatch := st.sessionBatch } : SysState) = st := rfl
        rw [heta]
        exact batchSaveSessionsE_empty .ok now st hb
      rw [hsame]
      refine ⟨(ih st hb hlen).1, ?_⟩
      rw [(ih st hb hlen).2, hbe, List.flatten_cons, List.nil_append]
    · have hne2 : ({ st with sessionBatch := st.sessionBatch ++ b } : SysState).sessionBatch
          ≠ [] := by
        show st.sessionBatch ++ b ≠ []
        rw [hb, List.nil_append]
        exact hbe
      rw [batchSaveSessions_ok now _ hne2]
      have hmid := ih ({ st with sessionBatch := [], sessions := some (sliceLast MAX_SESSIONS (st.sessions.getD [] ++ (st.sessionBatch ++ b))), lastStorageUpdate := now }) rfl (by simpa using sliceLast_length_le MAX_SESSIONS _)
      refine ⟨hmid.1, hmid.2.trans ?_⟩
      show sliceLast MAX_SESSIONS (sliceLast MAX_SESSIONS (st.sessions.getD [] ++ (st.sessionBatch ++ b)) ++ rest.flatten) = sliceLast MAX_SESSIONS (st.sessions.getD [] ++ (b :: rest).flatten)
      rw [sliceLast_append_sliceLast, hb, List.nil_append, List.flatten_cons,
        List.append_assoc]

/-- C4: after cumulative flush rounds whose appended records exceed
MAX_SESSIONS, the persisted sequence holds exactly MAX_SESSIONS
records, namely the most recently appended MAX_SESSIONS in their
original append order: dropping the oldest records from the append
sequence leaves exactly the persisted suffix. -/
theorem retention_caps_persisted (bs : List (List Session)) (now : Nat)
    (hN : MAX_SESSIONS < bs.flatten.length) :
    ((flushRounds bs now initState).sessions.getD []).length = MAX_SESSIONS ∧
    (flushRounds bs now initState).sessions.getD [] = sliceLast MAX_SESSIONS bs.flatten ∧
    bs.flatten.take (bs.flatten.length - MAX_SESSIONS)
        ++ (flushRounds bs now initState).sessions.getD [] = bs.flatten := by
  have h := flushRounds_getD now bs initState rfl (by simp [initState])
  have h2 : (flushRounds bs now initState).sessions.getD []
      = sliceLast MAX_SESSIONS bs.flatten := by
    rw [h.2]
    rfl
  refine ⟨?_, h2, ?_⟩
  · rw [h2]
    exact sliceLast_length_of_ge _ _ (Nat.le_of_lt hN)
  · rw [h2]
    exact take_append_sliceLast _ _

/-- Witness for C4: 1001 records flushed in one round leave exactly 1000
persisted. -/
theorem retention_caps_persisted_witness :
    MAX_SESSIONS < (List.flatten [List.replicate 1001 sessEx]).length ∧
    ((flushRounds [List.replicate 1001 sessEx] 5 initState).sessions.getD []).length
      = MAX_SESSIONS := by
  have hN : MAX_SESSIONS < (List.flatten [List.replicate 1001 sessEx]).length := by
    simp only [List.flatten_cons, List.flatten_nil, List.append_nil, List.length_replicate,
      MAX_SESSIONS]
    omega
  exact ⟨hN, (retention_caps_persisted _ 5 hN).1⟩

/-- Example state with one closed record waiting in the pending batch. -/
def stBatch : SysState := { initState with sessionBatch := [closeSession sessEx 7] }

/-- C5: a flush whose storage read or write fails leaves the whole state,
in particular the pending batch, unchanged, so the next flush retries
with the same accumulated records and a successful retry persists them
at the tail of the stored list: no session that reached the batch is
lost. -/
theorem flush_failure_keeps_batch (o : StorageOutcome) (now later : Nat) (s : SysState)
    (ho : o ≠ .ok) :
    batchSaveSessionsE o now s = s ∧
    batchSaveSessionsE .ok later (batchSaveSessionsE o now s)
      = batchSaveSessionsE .ok later s ∧
    (s.sessionBatch ≠ [] → s.sessionBatch.length ≤ MAX_SESSIONS →
      ∃ kept, (batchSaveSessionsE .ok later (batchSaveSessionsE o now s)).sessions
        = some (kept ++ s.sessionBatch)) := by
  have h1 : batchSaveSessionsE o now s = s := by
    unfold batchSaveSessionsE
    split
    · rfl
    · cases o with
      | ok => exact absurd rfl ho
      | readFail => rfl
      | writeFail => rfl
  refine ⟨h1, by rw [h1], ?_⟩
  intro hne hlen
  rw [h1]
  rw [show batchSaveSessionsE .ok later s = batchSaveSessions later s from rfl,
      batchSaveSessions_ok later s hne]
  have hd : (s.sessions.getD [] ++ s.sessionBatch).length - MAX_SESSIONS
      ≤ (s.sessions.getD []).length := by
    rw [List.length_append]
    omega
  refine ⟨(s.sessions.getD []).drop
    ((s.sessions.getD [] ++ s.sessionBatch).length - MAX_SESSIONS), ?_⟩
  show some (sliceLast MAX_SESSIONS (s.sessions.getD [] ++ s.sessionBatch)) = _
  unfold sliceLast
  rw [List.drop_append_of_le_length hd]

/-- Witness for C5: a failed read flush keeps the single batched record,
and the successful retry persists it. -/
theorem flush_failure_keeps_batch_witness :
    (StorageOutcome.readFail ≠ StorageOutcome.ok) ∧
    batchSaveSessionsE .readFail 10 stBatch = stBatch ∧
    stBatch.sessionBatch ≠ [] ∧ stBatch.sessionBatch.length ≤ MAX_SESSIONS ∧
    ∃ kept, (batchSaveSessionsE .ok 20 (batchSaveSessionsE .readFail 10 stBatch)).sessions
      = some (kept ++ stBatch.sessionBatch) := by
  have main := flush_failure_keeps_batch .readFail 10 20 stBatch (by decide)
  exact ⟨by decide, main.1, by decide, by decide, main.2.2 (by decide) (by decide)⟩

/-- C6 counterexample: two flush requests inside the same debounce window
each arm their own timer; the source keeps no record of an armed timer,
so after the second request two timers are pending, refuting the
at-most-one-pending-timer conjunct of the claim. -/
theorem schedule_arms_second_timer :
    (scheduleStorageUpdate 200 (scheduleStorageUpdate 100 initState)).pendingTimers.length
      = 2 ∧
    ¬ ((scheduleStorageUpdate 200
        (scheduleStorageUpdate 100 initState)).pendingTimers.length ≤ 1) := by
  decide

/-- C6 amended: a request within the window of the last completed flush
does not flush; it defers by arming a timer for lastFlush plus the
window, leaving every other field untouched — but each such request
arms one more timer instead of reusing an armed one — while a request
past the window flushes immediately. -/
theorem schedule_request_behaviour (now : Nat) (s : SysState)
    (hmono : s.lastStorageUpdate ≤ now)
    (hwin : now - s.lastStorageUpdate ≤ STORAGE_BATCH_DELAY) :
    scheduleStorageUpdate now s =
      { s with pendingTimers :=
          (s.lastStorageUpdate + STORAGE_BATCH_DELAY) :: s.pendingTimers } ∧
    (scheduleStorageUpdate now s).pendingTimers.length = s.pendingTimers.length + 1 ∧
    (∀ (s2 : SysState) (n2 : Nat), STORAGE_BATCH_DELAY < n2 - s2.lastStorageUpdate →
      scheduleStorageUpdate n2 s2 = batchSaveSessions n2 s2) := by
  have harith : now + (STORAGE_BATCH_DELAY - (now - s.lastStorageUpdate))
      = s.lastStorageUpdate + STORAGE_BATCH_DELAY := by
    have hd : STORAGE_BATCH_DELAY = 2000 := rfl
    omega
  have h1 := scheduleStorageUpdate_deferred now s hwin
  rw [harith] at h1
  refine ⟨h1, by rw [h1]; rfl, ?_⟩
  intro s2 n2 h
  unfold scheduleStorageUpdate
  rw [if_pos h]

/-- Witness for the amended C6: a request 100 ms after script load arms a
timer for the end of the window. -/
theorem schedule_request_behaviour_witness :
    initState.lastStorageUpdate ≤ 100 ∧
    100 - initState.lastStorageUpdate ≤ STORAGE_BATCH_DELAY ∧
    scheduleStorageUpdate 100 initState =
      { initState with pendingTimers :=
          (initState.lastStorageUpdate + STORAGE_BATCH_DELAY) :: initState.pendingTimers } := by
  have main := schedule_request_behaviour 100 initState (by decide) (by decide)
  exact ⟨by decide, by decide, main.1⟩

/-- Helper: any flush outcome keeps every held domain non-empty. -/
theorem batchSaveSessionsE_preserves (o : StorageOutcome) (now : Nat) (s : SysState)
    (h : domainsNonEmpty s = true) : domainsNonEmpty (batchSaveSessionsE o now s) = true := by
  unfold batchSaveSessionsE
  split
  · exact h
  · cases o with
    | readFail => exact h
    | writeFail => exact h
    | ok =>
      unfold domainsNonEmpty at h ⊢
      simp only [Bool.and_eq_true, List.all_eq_true] at h ⊢
      obtain ⟨⟨hcur, hbatch⟩, hstored⟩ := h
      refine ⟨⟨hcur, ?_⟩, ?_⟩
      · intro sess hs
        exact absurd hs (List.not_mem_nil sess)
      · intro sess hs
        simp only [Option.getD_some] at hs
        have hsub : sess ∈ s.sessions.getD [] ++ s.sessionBatch :=
          List.drop_subset _ _ hs
        rcases List.mem_append.mp hsub with h1 | h2
        · exact hstored sess h1
        · exact hbatch sess h2

/-- Helper: a storage update request keeps every held domain non-empty. -/
theorem scheduleStorageUpdate_preserves (now : Nat) (s : SysState)
    (h : domainsNonEmpty s = true) : domainsNonEmpty (scheduleStorageUpdate now s) = true := by
  unfold scheduleStorageUpdate
  split
  · exact batchSaveSessionsE_preserves .ok now s h
  · exact h

/-- Helper: a focus event whose URL fails domain extraction is ignored. -/
theorem updateSession_eq_of_none (url : String) (tabId now : Nat) (fav : Option String)
    (s : SysState) (hd : extractDomain url = none) :
    updateSession url tabId now fav s = s := by
  unfold updateSession updateSessionPhase1
  rw [hd]

/-- Helper: a focus event whose URL extracts to the empty domain is
ignored, since the empty string is falsy in the source guard. -/
theorem updateSession_eq_of_empty (url : String) (tabId now : Nat) (fav : Option String)
    (s : SysState) (domain : String)
    (hd : extractDomain url = some domain) (he : domain.isEmpty) :
    updateSession url tabId now fav s = s := by
  unfold updateSession updateSessionPhase1
  rw [hd]
  simp [he]

/-- Helper: a focus event matching the open session by domain and tab is
ignored. -/
theorem updateSession_eq_of_same (url : String) (tabId now : Nat) (fav : Option String)
    (s : SysState) (domain : String)
    (hd : extractDomain url = some domain)
    (hsame : sameSession s.currentSession domain tabId) :
    updateSession url tabId now fav s = s := by
  unfold updateSession updateSessionPhase1
  rw [hd]
  by_cases he : domain.isEmpty
  · simp [he]
  · simp [he, hsame]

/-- Helper: with no open session, a focus event with a usable domain
opens a session and requests a storage update. -/
theorem updateSession_eq_open (url : String) (tabId now : Nat) (fav : Option String)
    (s : SysState) (domain : String)
    (hd : extractDomain url = some domain) (he : ¬ domain.isEmpty)
    (_hsame : ¬ sameSession s.currentSession domain tabId)
    (hc : s.currentSession = none) :
    updateSession url tabId now fav s =
      scheduleStorageUpdate now
        { s with currentSession := some { domain := domain, startAt := now, tabId := tabId,
                                          endAt := none, favicon := fav } } := by
  unfold updateSession updateSessionPhase1
  rw [hd]
  simp [he, hc, sameSession, updateSessionPhase2]

/-- Helper: with a different open session, a focus event with a usable
domain closes and enqueues it, opens the new one and requests a storage
update. -/
theorem updateSession_eq_close_open (url : String) (tabId now : Nat) (fav : Option String)
    (s : SysState) (cur : Session) (domain : String)
    (hd : extractDomain url = some domain) (he : ¬ domain.isEmpty)
    (hsame : ¬ sameSession s.currentSession domain tabId)
    (hc : s.currentSession = some cur) :
    updateSession url tabId now fav s =
      scheduleStorageUpdate now
        { s with currentSession := some { domain := domain, startAt := now, tabId := tabId,
                                          endAt := none, favicon := fav },
                 sessionBatch := s.sessionBatch ++ [closeSession cur now] } := by
  unfold updateSession
  rw [updateSessionPhase1_supersede url tabId now s cur domain hc hd he
    (by simpa using hsame)]
  unfold updateSessionPhase2
  rfl

/-- Helper: a focus event keeps every held domain non-empty: the guard
discards null and empty domains before a session is created. -/
theorem updateSession_preserves (url : String) (tabId now : Nat) (fav : Option String)
    (s : SysState) (h : domainsNonEmpty s = true) :
    domainsNonEmpty (updateSession url tabId now fav s) = true := by
  cases hdom : extractDomain url with
  | none =>
    rw [updateSession_eq_of_none url tabId now fav s hdom]
    exact h
  | some domain =>
    by_cases he : domain.isEmpty
    · rw [updateSession_eq_of_empty url tabId now fav s domain hdom he]
      exact h
    · by_cases hsame : sameSession s.currentSession domain tabId
      · rw [updateSession_eq_of_same url tabId now fav s domain hdom hsame]
        exact h
      · cases hc : s.currentSession with
        | none =>
          rw [updateSession_eq_open url tabId now fav s domain hdom he hsame hc]
          apply scheduleStorageUpdate_preserves
          unfold domainsNonEmpty at h ⊢
          simp only [Bool.and_eq_true, List.all_eq_true] at h ⊢
          obtain ⟨⟨hcur, hbatch⟩, hstored⟩ := h
          refine ⟨⟨?_, hbatch⟩, hstored⟩
          simp [he]
        | some cur =>
          rw [updateSession_eq_close_open url tabId now fav s cur domain hdom he hsame hc]
          apply scheduleStorageUpdate_preserves
          unfold domainsNonEmpty at h ⊢
          rw [hc] at h
          simp only [Bool.and_eq_true, List.all_eq_true] at h ⊢
          obtain ⟨⟨hcur, hbatch⟩, hstored⟩ := h
          refine ⟨⟨?_, ?_⟩, hstored⟩
          · simp [he]
          · intro sess hs
            rcases List.mem_append.mp hs with h1 | h2
            · exact hbatch sess h1
            · rw [List.mem_singleton.mp h2]
              exact hcur

/-- Helper: an explicit session end keeps every held domain non-empty. -/
theorem endCurrentSession_preserves (now : Nat) (s : SysState)
    (h : domainsNonEmpty s = true) :
    domainsNonEmpty (endCurrentSession now s) = true := by
  unfold endCurrentSession
  cases hc : s.currentSession with
  | none => exact h
  | some cur =>
    apply scheduleStorageUpdate_preserves
    unfold domainsNonEmpty at h ⊢
    rw [hc] at h
    simp only [Bool.and_eq_true, List.all_eq_true] at h ⊢
    obtain ⟨⟨hcur, hbatch⟩, hstored⟩ := h
    refine ⟨⟨trivial, ?_⟩, hstored⟩
    intro sess hs
    rcases List.mem_append.mp hs with h1 | h2
    · exact hbatch sess h1
    · rw [List.mem_singleton.mp h2]
      exact hcur

/-- Helper: one event step keeps every held domain non-empty. -/
theorem step_preserves_domainsNonEmpty (e : Ev) (s : SysState)
    (h : domainsNonEmpty s = true) : domainsNonEmpty (step e s) = true := by
  cases e with
  | focus url tabId now favicon => exact updateSession_preserves url tabId now favicon s h
  | sessionEnd now => exact endCurrentSession_preserves now s h
  | flush o now => exact batchSaveSessionsE_preserves o now s h

/-- C10: from the initial state, after any sequence of focus events,
session ends and flushes, every session held in the current slot, the
pending batch or the persisted store has a non-empty domain: events
whose URL yields a null or empty domain are discarded before any
session is created. -/
theorem run_preserves_nonempty_domains (es : List Ev) :
    domainsNonEmpty (run es initState) = true := by
  have hgen : ∀ (start : SysState), domainsNonEmpty start = true →
      domainsNonEmpty (run es start) = true := by
    induction es with
    | nil => exact fun start h => h
    | cons e rest ih =>
      intro start h
      exact ih _ (step_preserves_domainsNonEmpty e start h)
  exact hgen initState rfl
